import Mathlib

/-!
Verification development for the linkedin-company-tracker repository.

The Python sources under `src/services/` are shallowly embedded below:
Python strings become `List Char`, the Google-Sheets worksheets become
lists of rows of cells, every network write becomes an explicit
`SheetOp` in an operation trace, and the remote HTTP endpoint becomes
an oracle mapping the index of a `requests.post` call to its outcome.
-/

/-- Python strings are modelled as lists of characters. -/
abbrev Str := List Char

/-- Embed a Lean string literal as a Python string value. -/
def str (s : String) : Str := s.toList

/-- Python `str.lstrip()` (default whitespace stripping). -/
def pyLstrip (l : Str) : Str := l.dropWhile Char.isWhitespace

/-- Python `str.rstrip()`. -/
def pyRstrip (l : Str) : Str := (l.reverse.dropWhile Char.isWhitespace).reverse

/-- Python `str.strip()`. -/
def pyStrip (l : Str) : Str := pyRstrip (pyLstrip l)

/-- Python `str.lower()` (ASCII case folding, which covers the repo's data). -/
def pyLower (l : Str) : Str := l.map Char.toLower

/-- One fuel-bounded step of Python `str.split(sep)` for a nonempty `sep`;
`cur` is the current chunk accumulated in reverse. -/
def splitOnSubAux (sep : Str) : Nat → Str → Str → List Str
| 0, s, cur => [cur.reverse ++ s]
| _ + 1, [], cur => [cur.reverse]
| fuel + 1, c :: rest, cur =>
  if sep.isPrefixOf (c :: rest) then
    cur.reverse :: splitOnSubAux sep fuel ((c :: rest).drop sep.length) []
  else
    splitOnSubAux sep fuel rest (c :: cur)

/-- Python `s.split(sep)` for nonempty `sep` (always returns at least one part). -/
def splitOnSub (sep s : Str) : List Str := splitOnSubAux sep (s.length + 1) s []

/-- Python `needle in hay` substring containment. -/
def containsSub (needle hay : Str) : Bool := hay.tails.any (fun t => needle.isPrefixOf t)

/-- `_normalize_profile_url` from `sheets_service.py`, identical to
`_get_username_from_profile_url` in `scrape_runner.py` and `linkedin_scraper.py`:
strip + lower, then for an http URL containing `/in/` take the path segment after
`/in/` up to the next `/` or `?`. -/
def _normalize_profile_url (u : Str) : Str :=
  let s := pyLower (pyStrip u)
  if s = [] then []
  else if (str "http").isPrefixOf s && containsSub (str "/in/") s then
    (splitOnSub (str "?")
      ((splitOnSub (str "/")
        ((splitOnSub (str "/in/") s).getLastD [])).headD [])).headD []
  else s

/-- `_normalize_company_url` from `sheets_service.py`: same shape with `/company/`. -/
def _normalize_company_url (u : Str) : Str :=
  let s := pyLower (pyStrip u)
  if s = [] then []
  else if (str "http").isPrefixOf s && containsSub (str "/company/") s then
    (splitOnSub (str "?")
      ((splitOnSub (str "/")
        ((splitOnSub (str "/company/") s).getLastD [])).headD [])).headD []
  else s

/-- `_row_key_by_url` from `sheets_service.py`. -/
def _row_key_by_url (companyUrl followerUrl : Str) : Str × Str :=
  (_normalize_company_url companyUrl, _normalize_profile_url followerUrl)

/-- Python `str.replace('"', '""')` as used by `_hyperlink_formula`. -/
def escQuotes : Str → Str
| [] => []
| c :: t => if c = '"' then '"' :: '"' :: escQuotes t else c :: escQuotes t

/-- Python `str.replace('""', '"')` (left-to-right, non-overlapping) as used by
`_parse_hyperlink_cell`. When a `"` is followed by an ordinary character, that
character cannot open a pair, so it is emitted together with the quote. -/
def unescQuotes : Str → Str
| [] => []
| c :: t =>
  if c = '"' then
    match t with
    | [] => ['"']
    | c2 :: t2 =>
      if c2 = '"' then '"' :: unescQuotes t2
      else '"' :: c2 :: unescQuotes t2
  else c :: unescQuotes t

/-- `_hyperlink_formula` from `sheets_service.py`. -/
def _hyperlink_formula (url label : Str) : Str :=
  str "=HYPERLINK(\"" ++ escQuotes url ++ str "\", \"" ++ escQuotes label ++ str "\")"

/-- The label-scanning `while` loop of `_parse_hyperlink_cell`, applied to the
characters after the label's opening quote: returns how many characters belong
to the label region (a `""` pair is consumed whole; a lone `"` terminates). -/
def scanLabel : Str → Nat
| [] => 0
| c :: t =>
  if c = '"' then
    match t with
    | c2 :: t2 => if c2 = '"' then 2 + scanLabel t2 else 0
    | [] => 0
  else 1 + scanLabel t

/-- `_parse_hyperlink_cell` from `sheets_service.py`. -/
def _parse_hyperlink_cell (cell : Str) : Str × Str :=
  let s := pyStrip cell
  if (str "=HYPERLINK(").isPrefixOf s then
    match s.dropWhile (fun c => c ≠ '"') with
    | [] => ([], s)
    | _ :: afterFirst =>
      let url := afterFirst.takeWhile (fun c => c ≠ '"')
      let rest1 := pyLstrip (afterFirst.drop (url.length + 1))
      match rest1 with
      | ',' :: rest2 =>
        match pyLstrip rest2 with
        | '"' :: labelArea =>
          (url, unescQuotes (labelArea.take (scanLabel labelArea)))
        | _ => (url, url)
      | _ => (url, url)
  else ([], s)

/-- Digit value of an ASCII digit character. -/
def digToNat (c : Char) : Nat := c.toNat - '0'.toNat

/-- Read a maximal run of leading ASCII digits. -/
def readDigits : Str → List Char × Str
| [] => ([], [])
| c :: t =>
  if c.isDigit then
    let r := readDigits t
    (c :: r.1, r.2)
  else ([], c :: t)

/-- Decimal value of a digit run. -/
def digitsVal (ds : List Char) : Nat := ds.foldl (fun a c => a * 10 + digToNat c) 0

/-- Read an optional leading sign. -/
def readSign : Str → Int × Str
| '+' :: t => (1, t)
| '-' :: t => (-1, t)
| s => (1, s)

/-- An exact decimal value `num / 10 ^ e10`; the value of a Python float
literal (binary-float rounding is idealised away). -/
structure Dec10 where
  num : Int
  e10 : Nat
deriving DecidableEq, Repr

/-- The rational value denoted by a `Dec10`. -/
def Dec10.toRat (v : Dec10) : ℚ := (v.num : ℚ) / (10 : ℚ) ^ v.e10

/-- Floor of the denoted value, computed with integer floor-division. -/
def Dec10.floorDays (v : Dec10) : Int := Int.fdiv v.num (10 ^ v.e10)

/-- Exponent suffix of a Python float literal (`e`/`E`, optional sign, digits);
`num / 10 ^ e10` is the mantissa read so far. -/
def readExpTail (num : Int) (e10 : Nat) (t : Str) : Option Dec10 :=
  let p := readSign t
  let d := readDigits p.2
  if d.1 = [] ∨ d.2 ≠ [] then none
  else if 0 ≤ p.1 then some ⟨num * 10 ^ digitsVal d.1, e10⟩
  else some ⟨num, e10 + digitsVal d.1⟩

/-- After the mantissa: either end of input or an exponent part. -/
def readAfterMant (num : Int) (e10 : Nat) : Str → Option Dec10
| [] => some ⟨num, e10⟩
| 'e' :: t => readExpTail num e10 t
| 'E' :: t => readExpTail num e10 t
| _ => none

/-- Python `float(s)` on a string, returning the exact value of the literal.
Grammar: surrounding whitespace, optional sign, digits with an optional
fraction, optional exponent. (`inf`/`nan` and `_` digit separators are not
modelled.) -/
def pyParseDec (s : Str) : Option Dec10 :=
  let s1 := pyStrip s
  let p := readSign s1
  let ip := readDigits p.2
  match ip.2 with
  | '.' :: s4 =>
    let fp := readDigits s4
    if ip.1 = [] ∧ fp.1 = [] then none
    else readAfterMant (p.1 * (digitsVal ip.1 * 10 ^ fp.1.length + digitsVal fp.1)) fp.1.length fp.2
  | _ =>
    if ip.1 = [] then none
    else readAfterMant (p.1 * digitsVal ip.1) 0 ip.2

/-- Proleptic-Gregorian date of a day count relative to 1970-01-01
(the standard civil-from-days computation; every intermediate division is on a
nonnegative value, so truncated `Int` division agrees with floor). This embeds
the `datetime` date arithmetic used by `excel_serial_to_date`. -/
def civilFromDays (z0 : Int) : Int × Int × Int :=
  let z := z0 + 719468
  let era := (if 0 ≤ z then z else z - 146096) / 146097
  let doe := z - era * 146097
  let yoe := (doe - doe / 1460 + doe / 36524 - doe / 146096) / 365
  let y := yoe + era * 400
  let doy := doe - (365 * yoe + yoe / 4 - yoe / 100)
  let mp := (5 * doy + 2) / 153
  let d := doy - (153 * mp + 2) / 5 + 1
  let m := if mp < 10 then mp + 3 else mp - 9
  (if m ≤ 2 then y + 1 else y, m, d)

/-- Decimal digit characters of a natural number. -/
def natDigits (n : Nat) : Str := Nat.toDigits 10 n

/-- Left-pad with zeros to width `w`. -/
def padZ (w : Nat) (s : Str) : Str := List.replicate (w - s.length) '0' ++ s

/-- `strftime("%Y-%m-%d")` for an (in-range) date triple. -/
def formatYMD (ymd : Int × Int × Int) : Str :=
  padZ 4 (natDigits ymd.1.toNat) ++ str "-" ++
  padZ 2 (natDigits ymd.2.1.toNat) ++ str "-" ++
  padZ 2 (natDigits ymd.2.2.toNat)

/-- 1899-12-30 (the code's `excel_epoch`) counted from 1970-01-01. -/
def EXCEL_EPOCH_DAYS : Int := -25569

/-- `excel_serial_to_date` from `scrape_runner.py`: numeric inputs become the
date `1899-12-30 + serial days` formatted `YYYY-MM-DD`; anything else is
returned unchanged (`str` of the original string input). -/
def excel_serial_to_date (s : Str) : Str :=
  match pyParseDec s with
  | none => s
  | some q => formatYMD (civilFromDays (q.floorDays + EXCEL_EPOCH_DAYS))

/-- `PROFILES_HEADERS` from `config/constants.py`. -/
def PROFILES_HEADERS : List Str :=
  [str "Name", str "LinkedIn Profile", str "Initially Scraped"]

/-- The first four entries of `OVERALL_HEADERS` (all that
`get_overall_records` compares against). -/
def OVERALL_HEADERS_4 : List Str :=
  [str "Company Name", str "Follower Name", str "Initial Scrape Date", str "Date Followed"]

/-- `LINKEDIN_PROFILE_BASE` from `config/constants.py`. -/
def LINKEDIN_PROFILE_BASE : Str := str "https://www.linkedin.com/in/"

/-- `row[i].strip() if len(row) > i else ""`. -/
def cellAt (row : List Str) (i : Nat) : Str := pyStrip (row.getD i [])

/-- `SheetsService.get_profiles`: input is the raw worksheet (header row
included), output the `(linkedin_profile, name, initially_scraped)` tuples. -/
def get_profiles (rows : List (List Str)) : List (Str × Str × Str) :=
  match rows with
  | [] => []
  | hdr :: rest =>
    if hdr ≠ PROFILES_HEADERS then []
    else rest.filterMap (fun row =>
      let name := cellAt row 0
      let profile := cellAt row 1
      let scraped := cellAt row 2
      if profile = [] then none else some (profile, name, scraped))

/-- A parsed Overall row (`get_overall_records` dict). -/
structure OverallRec where
  companyName : Str
  companyUrl : Str
  followerName : Str
  followerUrl : Str
  initialScrapeDate : Str
  dateFollowed : Str
deriving DecidableEq, Repr

/-- `SheetsService.get_overall_records`: header check on the first four
columns, then hyperlink-cell parsing of the first two cells of each row. -/
def get_overall_records (rows : List (List Str)) : List OverallRec :=
  match rows with
  | [] => []
  | hdr :: rest =>
    if (if 4 ≤ hdr.length then hdr.take 4 else hdr) ≠ OVERALL_HEADERS_4 then []
    else rest.filterMap (fun row =>
      if row.length < 2 then none
      else
        let cp := _parse_hyperlink_cell (row.getD 0 [])
        let fp := _parse_hyperlink_cell (row.getD 1 [])
        let cname := if cp.2 = [] ∧ cp.1 = [] then pyStrip (row.getD 0 []) else cp.2
        let fname := if fp.2 = [] ∧ fp.1 = [] then pyStrip (row.getD 1 []) else fp.2
        if cname ≠ [] ∨ cp.1 ≠ [] ∨ fname ≠ [] ∨ fp.1 ≠ [] then
          some ⟨cname, cp.1, fname, fp.1, row.getD 2 [], row.getD 3 []⟩
        else none)

/-- `SheetsService.get_overall_set`: the records plus the membership index
keyed by `_row_key_by_url` (the Python `set` is modelled as a list queried
with `∈`). -/
def get_overall_set (rows : List (List Str)) : List OverallRec × List (Str × Str) :=
  let records := get_overall_records rows
  (records, records.map (fun r => _row_key_by_url r.companyUrl r.followerUrl))

/-- One network write against the spreadsheet (one `append_rows`,
`batch_update` or `update_cell` round-trip). -/
inductive SheetOp
| appendOverallRows (values : List (List Str))
| appendNewFollowsRows (values : List (List Str))
| appendNewUnfollowsRows (values : List (List Str))
| deleteOverallRows (rows1based : List Nat)
| updateProfileScrapedCell (row1based : Nat)
deriving DecidableEq, Repr

/-- The rich cell for a `(name, url)` pair: a HYPERLINK formula when a URL
exists, the plain name otherwise (shared by all three append batches). -/
def pairCell (name url : Str) : Str :=
  if url ≠ [] then _hyperlink_formula url name else name

/-- `update_cell(row, 3, "Yes")` applied to a stored row. -/
def setScrapedYes (row : List Str) : List Str :=
  [row.getD 0 [], row.getD 1 [], str "Yes"] ++ row.drop 3

/-- The `for i in range(1, len(rows))` search of `set_profile_initially_scraped`
over the data rows: update the first row whose normalized profile URL matches,
returning its 0-based index and the updated row list. -/
def findSetScraped (key : Str) : Nat → List (List Str) → Option (Nat × List (List Str))
| _, [] => none
| i, row :: rest =>
  if _normalize_profile_url (row.getD 1 []) = key then
    some (i, setScrapedYes row :: rest)
  else
    match findSetScraped key (i + 1) rest with
    | some q => some (q.1, row :: q.2)
    | none => none

/-- `SheetsService.set_profile_initially_scraped`: find the first data row
(header excluded) whose normalized profile URL matches and set its third cell
to `Yes`. Returns the updated worksheet and the network writes performed. -/
def set_profile_initially_scraped (rows : List (List Str)) (url : Str) :
    List (List Str) × List SheetOp :=
  let key := _normalize_profile_url url
  if key = [] then (rows, [])
  else
    match rows with
    | [] => (rows, [])
    | hdr :: rest =>
      match findSetScraped key 1 rest with
      | some q => (hdr :: q.2, [SheetOp.updateProfileScrapedCell (q.1 + 1)])
      | none => (rows, [])

/-- Observer: the `Initially Scraped` cell of the first data row matching a
normalized profile key (how a later `get_profiles`-style scan sees the flag). -/
def flagLookup (key : Str) : List (List Str) → Option Str
| [] => none
| row :: rest =>
  if _normalize_profile_url (row.getD 1 []) = key then some (row.getD 2 [])
  else flagLookup key rest

/-- The flag cell of a profile in the Profiles worksheet (header excluded). -/
def profileFlagCell (rows : List (List Str)) (key : Str) : Option Str :=
  match rows with
  | [] => none
  | _ :: rest => flagLookup key rest

/-- Python `sorted(l, reverse=True)` on row numbers (insertion sort under
the descending order). -/
def sortDesc (l : List Nat) : List Nat := List.insertionSort (fun a b => b ≤ a) l

/-- `SheetsService.remove_from_overall_by_row_indices`: de-duplicate, drop the
header row, sort descending, and apply the deletions of one `batch_update`
call in request order (descending, so each 1-based index still refers to the
originally intended row). Returns the updated worksheet and the write trace. -/
def remove_from_overall_by_row_indices (sheet : List (List Str)) (rows1 : List Nat) :
    List (List Str) × List SheetOp :=
  let uniq := sortDesc ((rows1.filter (fun r => 1 < r)).dedup)
  if uniq = [] then (sheet, [])
  else (uniq.foldl (fun sh r => sh.eraseIdx (r - 1)) sheet, [SheetOp.deleteOverallRows uniq])

/-- A followed company as returned by `get_followed_companies`
(`{"name": ..., "url": ...}`). -/
structure Company where
  name : Str
  url : Str
deriving DecidableEq, Repr

/-- `(c.get("name") or c.get("url", "")).strip()` from `run_scrape`. -/
def companyDisplayName (c : Company) : Str :=
  pyStrip (if c.name ≠ [] then c.name else c.url)

/-- The key `run_scrape` uses for the current fetched set and for the
new-follow membership test: lower-cased display name paired with the
normalized follower key. -/
def currentFollowKey (c : Company) (followerKey : Str) : Str × Str :=
  (pyLower (companyDisplayName c), followerKey)

/-- `display_name = (follower_name or "").strip() or follower_url`. -/
def displayNameOf (followerName followerUrl : Str) : Str :=
  let t := pyStrip followerName
  if t = [] then followerUrl else t

/-- `follower_url` as computed by the `run_scrape` loop. -/
def followerUrlOf (profileDisplay : Str) : Str :=
  if (str "http").isPrefixOf profileDisplay then profileDisplay
  else LINKEDIN_PROFILE_BASE ++ _normalize_profile_url profileDisplay ++ str "/"

/-- The Overall row written for one company on the initial-scrape branch:
today as `Initial Scrape Date`, empty `Date Followed`. -/
def initialOverallRow (today displayName followerUrl : Str) (co : Company) : List Str :=
  [pairCell (companyDisplayName co) (pyStrip co.url),
   pairCell displayName followerUrl, today, []]

/-- The spreadsheet state owned by the run: Profiles and Overall worksheets,
each with its header row. (The two event sheets are never read back, so only
their writes appear in the operation trace.) -/
structure Store where
  profilesRows : List (List Str)
  overallRows : List (List Str)
deriving DecidableEq, Repr

/-- The orchestrator's accumulated observable state: store, network-write
trace, `profiles_processed`, `new_follows_list`, `new_unfollows_list` and the
`on_progress` call trace. Status-callback messages are threaded separately. -/
structure Core where
  store : Store
  ops : List SheetOp
  processed : Nat
  nfList : List (Str × Str × Str × Str × Str)
  nuList : List (OverallRec × Str)
  progresses : List (Str × Nat × Nat)
deriving DecidableEq, Repr

/-- The initial-scrape branch of the `run_scrape` loop body: batch-write all
companies to Overall with today as initial-scrape date, then flip the flag. -/
def stepInitial (today profileDisplay displayName followerUrl : Str)
    (companies : List Company) (c : Core) : Core :=
  let values := companies.map (initialOverallRow today displayName followerUrl)
  let ops1 := if values = [] then [] else [SheetOp.appendOverallRows values]
  let overall1 := if values = [] then c.store.overallRows
                  else c.store.overallRows ++ values
  let pr := set_profile_initially_scraped c.store.profilesRows profileDisplay
  { store := { profilesRows := pr.1, overallRows := overall1 },
    ops := c.ops ++ ops1 ++ pr.2,
    processed := c.processed + 1,
    nfList := c.nfList,
    nuList := c.nuList,
    progresses := c.progresses ++ [(displayName, c.nfList.length, c.nuList.length)] }

/-- The `current_set` of the incremental branch: lower-cased display-name key
per fetched company with a nonempty display name. -/
def currentSetOf (companies : List Company) (followerKey : Str) : List (Str × Str) :=
  companies.filterMap (fun co =>
    if companyDisplayName co ≠ [] then some (currentFollowKey co followerKey) else none)

/-- The fetched companies whose key is absent from the Overall set
(the new-follow loop's condition). -/
def newFollowsOf (companies : List Company) (followerKey : Str)
    (overallSet : List (Str × Str)) : List Company :=
  companies.filter (fun co => decide (currentFollowKey co followerKey ∉ overallSet))

/-- The enumerated Overall records of this follower whose name key is absent
from the current set (the unfollow loop's condition). -/
def unfollowsOf (records : List OverallRec) (followerKey : Str)
    (currentSet : List (Str × Str)) : List (Nat × OverallRec) :=
  records.enum.filter (fun q =>
    decide (_normalize_profile_url q.2.followerUrl = followerKey) &&
    decide ((pyLower (pyStrip q.2.companyName), followerKey) ∉ currentSet))

/-- The incremental branch of the `run_scrape` loop body: diff the fetched
companies against the Overall snapshot, batch the appends, then remove the
unfollowed rows one delete call at a time in descending row order. -/
def stepIncremental (today displayName followerUrl : Str)
    (companies : List Company) (c : Core) : Core :=
  let osr := get_overall_set c.store.overallRows
  let records := osr.1
  let overallSet := osr.2
  let followerKey := _normalize_profile_url followerUrl
  let currentSet := currentSetOf companies followerKey
  let nf := newFollowsOf companies followerKey overallSet
  let newOverallValues := nf.map (fun co =>
    [pairCell (companyDisplayName co) (pyStrip co.url),
     pairCell displayName followerUrl, ([] : Str), today])
  let newFollowValues := nf.map (fun co =>
    [pairCell (companyDisplayName co) (pyStrip co.url),
     pairCell displayName followerUrl, today])
  let nfEntries := nf.map (fun co =>
    (companyDisplayName co, pyStrip co.url, displayName, followerUrl, today))
  let unf := unfollowsOf records followerKey currentSet
  let newUnfollowValues := unf.map (fun q =>
    [pairCell q.2.companyName q.2.companyUrl,
     pairCell displayName q.2.followerUrl,
     q.2.initialScrapeDate,
     excel_serial_to_date q.2.dateFollowed,
     today])
  let nuEntries := unf.map (fun q => (q.2, today))
  let rowsToRemove := unf.map (fun q => q.1 + 2)
  let ops1 := if newOverallValues = [] then []
              else [SheetOp.appendOverallRows newOverallValues]
  let ops2 := if newFollowValues = [] then []
              else [SheetOp.appendNewFollowsRows newFollowValues]
  let ops3 := if newUnfollowValues = [] then []
              else [SheetOp.appendNewUnfollowsRows newUnfollowValues]
  let overall1 := if newOverallValues = [] then c.store.overallRows
                  else c.store.overallRows ++ newOverallValues
  let delRes := (sortDesc rowsToRemove).foldl
    (fun acc r =>
      let q := remove_from_overall_by_row_indices acc.1 [r]
      (q.1, acc.2 ++ q.2))
    (overall1, ([] : List SheetOp))
  { store := { profilesRows := c.store.profilesRows, overallRows := delRes.1 },
    ops := c.ops ++ ops1 ++ ops2 ++ ops3 ++ delRes.2,
    processed := c.processed + 1,
    nfList := c.nfList ++ nfEntries,
    nuList := c.nuList ++ nuEntries,
    progresses := c.progresses ++
      [(displayName, (c.nfList ++ nfEntries).length, (c.nuList ++ nuEntries).length)] }

/-- One iteration of the `run_scrape` profile loop on profile
`(profile_display, follower_name, initially_scraped)`; `fetch` abstracts
`get_followed_companies` (an `error` is any raised exception, carried as its
message). Returns the new core state plus the `on_status` messages emitted. -/
def stepCore (fetch : Str → Except Str (List Company)) (today : Str)
    (c : Core) (p : Str × Str × Str) : Core × List Str :=
  let profileDisplay := p.1
  let followerName := p.2.1
  let initiallyScraped := p.2.2
  let normalized := _normalize_profile_url profileDisplay
  if normalized = [] then (c, [])
  else
    let followerUrl := followerUrlOf profileDisplay
    let displayName := displayNameOf followerName followerUrl
    match fetch profileDisplay with
    | .error e => (c, [displayName, displayName ++ str " (error: " ++ e ++ str ")"])
    | .ok companies =>
      let isInitial := pyLower (pyStrip initiallyScraped) ≠ str "yes"
      if isInitial then
        (stepInitial today profileDisplay displayName followerUrl companies c, [displayName])
      else
        (stepIncremental today displayName followerUrl companies c, [displayName])

/-- Fold `stepCore` over a profile list, concatenating status messages. -/
def runList (fetch : Str → Except Str (List Company)) (today : Str)
    (ps : List (Str × Str × Str)) (c : Core) : Core × List Str :=
  ps.foldl (fun acc p =>
    let r := stepCore fetch today acc.1 p
    (r.1, acc.2 ++ r.2)) (c, [])

/-- The core state at the start of a pass. -/
def initCore (st : Store) : Core := ⟨st, [], 0, [], [], []⟩

/-- `run_scrape` from `scrape_runner.py`: read the profiles, process each in
list order. The Python return tuple is recoverable from the final core as
`(processed, nfList.length, nuList.length, nfList, nuList)`. -/
def run_scrape (fetch : Str → Except Str (List Company)) (today : Str)
    (st : Store) : Core × List Str :=
  runList fetch today (get_profiles st.profilesRows) (initCore st)

/-- Parsed JSON payload of a successful response: `success`, `data.items`
(each item's `name` / `linkedinURL`, absent fields carried as empty), and
`data.totalPages` (`0` models a falsy/absent value, coalesced to 1 at use,
matching `body.get("totalPages") or 1`). -/
structure ApiData where
  success : Bool
  items : List (Str × Str)
  totalPages : Nat
deriving DecidableEq, Repr

/-- Outcome of one `requests.post` call: the call raised, or returned a
response with a status code and (for `.json()`) either a parsed payload or
`none` when `.json()` raises `ValueError`. -/
inductive PostOutcome
| raise
| resp (status : Nat) (body : Option ApiData)
deriving DecidableEq, Repr

/-- How `get_followed_companies` terminates abnormally. The two
`LinkedInAPIError` forms are the distinguished errors the spec names;
`unboundLocal` is the Python `UnboundLocalError` raised when all 12 inner
post attempts fail before `response` was ever assigned. -/
inductive FetchErr
| rateLimited
| apiUnavailable
| unboundLocal
deriving DecidableEq, Repr

/-- The inner `for _ in range(12)` retry loop around `requests.post`: consume
oracle calls until one returns a response or the 12 tries are spent. Returns
the next call index and the response, if any. -/
def innerPost (oracle : Nat → PostOutcome) : Nat → Nat → Nat × Option (Nat × Option ApiData)
| 0, k => (k, none)
| fuel + 1, k =>
  match oracle k with
  | .raise => innerPost oracle fuel (k + 1)
  | .resp st b => (k + 1, some (st, b))

/-- Result of the `for attempt in range(max_retries)` loop for one page. -/
inductive AttemptResult
| gotData (d : ApiData)
| noData
| fail (e : FetchErr)
deriving DecidableEq, Repr

/-- The 15-attempt retry loop of `get_followed_companies` for one page.
`lastResp` is the Python local `response`, which survives across attempts and
pages and is silently reused when all 12 inner posts raise. `attemptsLeft = 1`
is the final attempt (`attempt == max_retries - 1`). Returns the next call
index, the final `response` value, and how the loop resolved. -/
def attemptLoop (oracle : Nat → PostOutcome) (page : Nat) :
    Nat → Nat → Option (Nat × Option ApiData) →
    Nat × Option (Nat × Option ApiData) × AttemptResult
| 0, k, lastResp => (k, lastResp, AttemptResult.noData)
| attemptsLeft + 1, k, lastResp =>
  let ip := innerPost oracle 12 k
  let respNow := match ip.2 with
    | some r => some r
    | none => lastResp
  match respNow with
  | none => (ip.1, lastResp, AttemptResult.fail FetchErr.unboundLocal)
  | some r =>
    let st := r.1
    if st = 429 then
      if attemptsLeft = 0 then (ip.1, some r, AttemptResult.fail FetchErr.rateLimited)
      else attemptLoop oracle page attemptsLeft ip.1 (some r)
    else if 400 ≤ st ∧ st < 600 then
      if attemptsLeft = 0 then
        (ip.1, some r,
         if page = 1 then AttemptResult.fail FetchErr.apiUnavailable else AttemptResult.noData)
      else attemptLoop oracle page attemptsLeft ip.1 (some r)
    else
      match r.2 with
      | none =>
        if attemptsLeft = 0 then
          (ip.1, some r,
           if page = 1 then AttemptResult.fail FetchErr.apiUnavailable else AttemptResult.noData)
        else attemptLoop oracle page attemptsLeft ip.1 (some r)
      | some d => (ip.1, some r, AttemptResult.gotData d)

/-- The item post-processing loop of `get_followed_companies`: drop items with
neither name nor URL; name defaults to the URL. -/
def processItems (items : List (Str × Str)) : List Company :=
  items.filterMap (fun it =>
    let nm := pyStrip it.1
    let u := pyStrip it.2
    if nm ≠ [] ∨ u ≠ [] then some ⟨if nm ≠ [] then nm else u, u⟩ else none)

/-- The `while page <= total_pages` pagination loop. `fuel` bounds the number
of observed iterations (the Python loop's bound is data-dependent). -/
def pageLoop (oracle : Nat → PostOutcome) :
    Nat → Nat → Nat → Nat → Option (Nat × Option ApiData) → List Company →
    Except FetchErr (List Company)
| 0, _, _, _, _, acc => .ok acc
| fuel + 1, page, totalPages, k, lastResp, acc =>
  if totalPages < page then .ok acc
  else
    match attemptLoop oracle page 15 k lastResp with
    | (_, _, .fail e) => .error e
    | (_, _, .noData) => .ok acc
    | (k', lastResp', .gotData d) =>
      if d.success then
        let tp := if d.totalPages = 0 then 1 else d.totalPages
        pageLoop oracle fuel (page + 1) tp k' lastResp' (acc ++ processItems d.items)
      else if page = 1 then .ok []
      else .ok acc

/-- `get_followed_companies` from `linkedin_scraper.py`, with the HTTP
endpoint abstracted as an oracle indexed by the `requests.post` call count. -/
def get_followed_companies (oracle : Nat → PostOutcome) (fuel : Nat)
    (profileUrl : Str) : Except FetchErr (List Company) :=
  if _normalize_profile_url profileUrl = [] then .ok []
  else pageLoop oracle fuel 1 1 0 none []

/-- A `datetime` instant: a day index (with day 0 a Monday, matching
`weekday()`'s Monday-is-0 convention) and microseconds within the day. -/
structure DT where
  day : Int
  us : Nat
deriving DecidableEq, Repr

/-- `datetime` `<` comparison (lexicographic). -/
def dtLt (a b : DT) : Prop := a.day < b.day ∨ (a.day = b.day ∧ a.us < b.us)

/-- `datetime` `<=` comparison. -/
def dtLe (a b : DT) : Prop := dtLt a b ∨ a = b

instance (a b : DT) : Decidable (dtLt a b) := by unfold dtLt; infer_instance

instance (a b : DT) : Decidable (dtLe a b) := by unfold dtLe; infer_instance

/-- Microseconds of `now.replace(hour=h, minute=m, second=0, microsecond=0)`. -/
def usOfHM (h m : Nat) : Nat := (h * 3600 + m * 60) * 1000000

/-- `weekday()` of a day index. -/
def wkday (d : Int) : Nat := ((d % 7 + 7) % 7).toNat

/-- The `for d in range(1, 8)` search loop of `get_next_run`: first `d`
(starting at `start`, up to `fuel` candidates) satisfying `p`. -/
def scanDays (p : Nat → Bool) : Nat → Nat → Option Nat
| 0, _ => none
| fuel + 1, d => if p d then some d else scanDays p fuel (d + 1)

/-- `get_next_run` from `scheduler.py`: next instant at `hour:minute` on a
selected weekday, strictly after `now` (the Python `set[int]` of days is
modelled as a list queried with `∈`). -/
def get_next_run (sel : List Nat) (hour minute : Nat) (now : DT) : Option DT :=
  if sel = [] then none
  else
    let tat : DT := ⟨now.day, usOfHM hour minute⟩
    if wkday now.day ∈ sel ∧ dtLt now tat then some tat
    else
      match scanDays (fun d => decide (wkday (now.day + (d : Int)) ∈ sel)) 7 1 with
      | some d => some ⟨now.day + (d : Int), tat.us⟩
      | none => none

/-- Concrete scenario data: the tracked profile John (flag already `Yes`). -/
def johnProfileUrl : Str := str "https://www.linkedin.com/in/john/"

/-- Acme's company URL. -/
def acmeCompanyUrl : Str := str "https://www.linkedin.com/company/acme/"

/-- Acme as returned by the remote fetch. -/
def acmeCompany : Company := ⟨str "Acme Corp", acmeCompanyUrl⟩

/-- Profiles worksheet with John marked initially scraped. -/
def johnProfilesSheet : List (List Str) := [PROFILES_HEADERS, [str "John", johnProfileUrl, str "Yes"]]

/-- Store with an empty Overall worksheet. -/
def emptyOverallStore : Store := ⟨johnProfilesSheet, [OVERALL_HEADERS_4]⟩

/-- Remote oracle: John follows exactly Acme, unchanged between runs. -/
def fetchAcme : Str → Except Str (List Company) := fun _ => .ok [acmeCompany]

/-- First incremental pass against the unchanged remote result set. -/
def runFirst : Core × List Str := run_scrape fetchAcme (str "2026-03-01") emptyOverallStore

/-- Second incremental pass against the same unchanged remote result set. -/
def runSecond : Core × List Str := run_scrape fetchAcme (str "2026-03-02") runFirst.1.store

/-- An Overall data row for John with a plain-text company cell. -/
def johnOverallRow (nm : String) : List Str :=
  [pairCell (str nm) [], _hyperlink_formula johnProfileUrl (str "John"), str "2026-01-01", []]

/-- Store whose Overall worksheet holds two rows for John. -/
def twoRowStore : Store := ⟨johnProfilesSheet, [OVERALL_HEADERS_4, johnOverallRow "A", johnOverallRow "B"]⟩

/-- Pass in which John's fetch comes back empty, unfollowing both companies. -/
def runUnfollowAll : Core × List Str := run_scrape (fun _ => .ok []) (str "2026-03-01") twoRowStore

/-- Recogniser for delete operations in the write trace. -/
def isDeleteOp : SheetOp → Bool
| .deleteOverallRows _ => true
| _ => false

/-- Page-1 payload announcing two pages of results. -/
def apiPage1Data : ApiData := ⟨true, [(str "Acme", acmeCompanyUrl)], 2⟩

/-- Oracle on which every `requests.post` call raises. -/
def oracleConnFail : Nat → PostOutcome := fun _ => PostOutcome.raise

/-- Oracle on which the first call succeeds and all later calls raise. -/
def oracleConnFailPage2 : Nat → PostOutcome :=
  fun k => if k = 0 then PostOutcome.resp 200 (some apiPage1Data) else PostOutcome.raise

instance : IsTotal Nat (fun a b => b ≤ a) := ⟨fun a b => le_total b a⟩

instance : IsTrans Nat (fun a b => b ≤ a) := ⟨fun _ _ _ hab hbc => le_trans hbc hab⟩

/-- Recogniser for the three batch-append operations. -/
def isAppendOp : SheetOp → Bool
| .appendOverallRows _ => true
| .appendNewFollowsRows _ => true
| .appendNewUnfollowsRows _ => true
| _ => false

/-- Store and profile data for the C7 witness: John not yet scraped. -/
def johnProfilesSheetNo : List (List Str) :=
  [PROFILES_HEADERS, [str "John", johnProfileUrl, str "No"]]

/-- Witness store for C7. -/
def initStoreNo : Store := ⟨johnProfilesSheetNo, [OVERALL_HEADERS_4]⟩

/-- C1: the claim says a second incremental pass against an unchanged remote
result set produces zero new-follow and zero new-unfollow records and leaves
the Overall snapshot equal to the fetched set. Evaluating the embedded
`run_scrape` at the failing input shows otherwise: the first pass records
Acme as a new follow (1 data row besides the header), and the second pass
records the same company as a new follow again — the Overall sheet grows to
two duplicate Acme rows — because the new-follow membership test compares the
lower-cased display-name key against the URL-derived key of the stored row. -/
theorem c1_second_pass_duplicates_follow :
  runFirst.1.nfList.length = 1 ∧
  runFirst.1.store.overallRows.length = 2 ∧
  runSecond.1.nfList.length = 1 ∧
  runSecond.1.nuList.length = 0 ∧
  runSecond.1.store.overallRows.length = 3 := by decide

/-- C2: the claim says every set-membership comparison of the reconciliation
diff uses the URL-derived normalized key and never a raw display string.
Evaluating the embedded definitions: the key `run_scrape` computes for the
fetched Acme is its lower-cased display name `("acme corp", "john")`, the
stored Overall row is indexed under `_row_key_by_url` as `("acme", "john")`,
and the membership test therefore misses the row that is demonstrably present
for the same company URL and follower URL. -/
theorem c2_diff_key_uses_raw_display_name :
  currentFollowKey acmeCompany (str "john") = (str "acme corp", str "john") ∧
  _row_key_by_url acmeCompanyUrl johnProfileUrl = (str "acme", str "john") ∧
  (∃ r ∈ (get_overall_set runFirst.1.store.overallRows).1,
    r.companyUrl = acmeCompanyUrl ∧ r.followerUrl = johnProfileUrl) ∧
  currentFollowKey acmeCompany (str "john") ∉ (get_overall_set runFirst.1.store.overallRows).2 := by
  decide

/-- C3 counterexample: with two accumulated Overall-row removals for one
profile, the embedded `run_scrape` issues two separate single-row delete
requests (rows 3 then 2), not one batched delete request, refuting the claim
that all accumulated removals are applied as a single batched delete. -/
theorem c3_two_removals_two_delete_calls :
  runUnfollowAll.1.nuList.length = 2 ∧
  runUnfollowAll.1.ops.filter isDeleteOp =
    [SheetOp.deleteOverallRows [3], SheetOp.deleteOverallRows [2]] ∧
  (runUnfollowAll.1.ops.filter isDeleteOp).length ≠ 1 := by decide

/-- C4: the claim says a transient network failure exhausting its retries
raises the distinguished API-unavailable error on page 1, and yields the
already-collected items on later pages. Evaluating the embedding at the
failing inputs: when every post raises a connection error, page 1 ends in the
undistinguished `UnboundLocalError` (the bare inner `except` swallows the
failures before the outer handler can see them); and when page 2's posts all
raise, the stale page-1 `response` is silently re-parsed, so the page-1 items
are returned twice instead of once. -/
theorem c4_connection_failures_break_error_contract :
  get_followed_companies oracleConnFail 5 johnProfileUrl = .error FetchErr.unboundLocal ∧
  FetchErr.unboundLocal ≠ FetchErr.apiUnavailable ∧
  FetchErr.unboundLocal ≠ FetchErr.rateLimited ∧
  get_followed_companies oracleConnFailPage2 5 johnProfileUrl =
    .ok [⟨str "Acme", acmeCompanyUrl⟩, ⟨str "Acme", acmeCompanyUrl⟩] :=
  ⟨rfl, by decide, by decide, rfl⟩

/-- C6: numeric inputs (here with the exact rational value of the literal)
are mapped to the calendar date `1899-12-30 + serial` days in `YYYY-MM-DD`
form — in particular serial 46077 yields 2026-02-24 — and any input that does
not parse as a number is returned unchanged. -/
theorem c6_excel_serial_conversion :
  excel_serial_to_date (str "46077") = str "2026-02-24" ∧
  (∀ s v, pyParseDec s = some v →
    excel_serial_to_date s = formatYMD (civilFromDays (v.floorDays + EXCEL_EPOCH_DAYS))) ∧
  (∀ s, pyParseDec s = none → excel_serial_to_date s = s) := by
  refine ⟨by decide, ?_, ?_⟩
  · intro s v h
    simp [excel_serial_to_date, h]
  · intro s h
    simp [excel_serial_to_date, h]

/-- Witness for C6 at concrete inputs. -/
theorem c6_excel_serial_conversion_witness :
  pyParseDec (str "not a date") = none ∧
  excel_serial_to_date (str "not a date") = str "not a date" ∧
  pyParseDec (str "7") = some ⟨7, 0⟩ ∧
  excel_serial_to_date (str "7") = formatYMD (civilFromDays ((Dec10.mk 7 0).floorDays + EXCEL_EPOCH_DAYS)) :=
  ⟨by decide, c6_excel_serial_conversion.2.2 _ (by decide), by decide,
   c6_excel_serial_conversion.2.1 _ _ (by decide)⟩

/-- The row-to-profile extraction of `get_profiles` as a filter over a map:
rows are kept in order and dropped exactly when the profile cell is empty. -/
lemma get_profiles_filterMap_eq (rest : List (List Str)) :
    (rest.filterMap (fun row =>
      if cellAt row 1 = [] then none
      else some (cellAt row 1, cellAt row 0, cellAt row 2))) =
    (rest.map (fun row => (cellAt row 1, cellAt row 0, cellAt row 2))).filter
      (fun t => decide (t.1 ≠ [])) := by
  induction rest with
  | nil => rfl
  | cons row rest ih =>
    by_cases h : cellAt row 1 = [] <;>
      simp [List.filterMap_cons, List.filter_cons, h, ih]

/-- C9: reading the Profiles table returns the empty list whenever the header
row does not exactly match the expected schema (and on an empty read), and
otherwise returns the data rows in sheet order with the rows lacking a profile
value skipped; reading the Overall table likewise returns the empty list on a
header mismatch. All reads are total functions, so a mismatch never raises. -/
theorem c9_header_mismatch_reads_empty :
  (∀ hdr rest, hdr ≠ PROFILES_HEADERS → get_profiles (hdr :: rest) = []) ∧
  get_profiles [] = [] ∧
  (∀ rest, get_profiles (PROFILES_HEADERS :: rest) =
    (rest.map (fun row => (cellAt row 1, cellAt row 0, cellAt row 2))).filter
      (fun t => decide (t.1 ≠ []))) ∧
  (∀ hdr rest, (if 4 ≤ hdr.length then hdr.take 4 else hdr) ≠ OVERALL_HEADERS_4 →
    get_overall_records (hdr :: rest) = []) ∧
  get_overall_records [] = [] := by
  refine ⟨?_, rfl, ?_, ?_, rfl⟩
  · intro hdr rest h
    simp [get_profiles, h]
  · intro rest
    rw [← get_profiles_filterMap_eq]
    simp [get_profiles]
  · intro hdr rest h
    simp [get_overall_records, h]

/-- Witness for C9 at concrete inputs: a mangled header makes both reads
empty, and a good Profiles read skips the row without a profile value. -/
theorem c9_header_mismatch_reads_empty_witness :
  [str "X"] ≠ PROFILES_HEADERS ∧
  get_profiles [[str "X"], [str "A", str "u", str "No"]] = [] ∧
  get_profiles [PROFILES_HEADERS, [str "A", str "u", str "No"], [str "B"], [str "C", str "v", str "No"]] =
    [(str "u", str "A", str "No"), (str "v", str "C", str "No")] ∧
  get_overall_records [[str "X"], [str "a", str "b"]] = [] :=
  ⟨by decide, c9_header_mismatch_reads_empty.1 _ _ (by decide),
   by rw [c9_header_mismatch_reads_empty.2.2.1]; decide,
   c9_header_mismatch_reads_empty.2.2.2.1 _ _ (by decide)⟩

/-- Escaping is the identity on quote-free strings. -/
lemma escQuotes_no_quote (u : Str) (h : '"' ∉ u) : escQuotes u = u := by
  induction u with
  | nil => rfl
  | cons c t ih =>
    have hc : c ≠ '"' := fun hc => h (hc ▸ List.mem_cons_self c t)
    have ht : '"' ∉ t := fun hm => h (List.mem_cons_of_mem c hm)
    simp [escQuotes, hc, ih ht]

/-- Unescaping consumes an escaped pair whole. -/
lemma unescQuotes_pair (t2 : Str) : unescQuotes ('"' :: '"' :: t2) = '"' :: unescQuotes t2 := rfl

/-- Unescaping passes an ordinary character through. -/
lemma unescQuotes_nq (c : Char) (t : Str) (h : c ≠ '"') :
    unescQuotes (c :: t) = c :: unescQuotes t := by
  rw [unescQuotes.eq_def]
  simp [h]

/-- The label scan consumes an escaped pair whole. -/
lemma scanLabel_pair (t2 : Str) : scanLabel ('"' :: '"' :: t2) = 2 + scanLabel t2 := rfl

/-- The label scan stops at a lone quote. -/
lemma scanLabel_stop (c : Char) (t : Str) (h : c ≠ '"') : scanLabel ('"' :: c :: t) = 0 := by
  rw [scanLabel.eq_def]
  simp [h]

/-- The label scan walks over an ordinary character. -/
lemma scanLabel_nq (c : Char) (t : Str) (h : c ≠ '"') :
    scanLabel (c :: t) = 1 + scanLabel t := by
  rw [scanLabel.eq_def]
  simp [h]

/-- Unescaping undoes escaping on any string. -/
lemma unescQuotes_escQuotes (l : Str) : unescQuotes (escQuotes l) = l := by
  induction l with
  | nil => rfl
  | cons c t ih =>
    by_cases hc : c = '"'
    · subst hc
      have he : escQuotes ('"' :: t) = '"' :: '"' :: escQuotes t := by simp [escQuotes]
      rw [he, unescQuotes_pair, ih]
    · simp only [escQuotes, if_neg hc]
      rw [unescQuotes_nq c _ hc, ih]

/-- The label scan stops exactly at the closing quote after an escaped label,
provided the closing quote is not followed by another quote. -/
lemma scanLabel_esc (l : Str) (c : Char) (t : Str) (hc : c ≠ '"') :
    scanLabel (escQuotes l ++ '"' :: c :: t) = (escQuotes l).length := by
  induction l with
  | nil =>
    simp only [escQuotes, List.nil_append, List.length_nil]
    exact scanLabel_stop c t hc
  | cons a l' ih =>
    by_cases ha : a = '"'
    · subst ha
      have he : escQuotes ('"' :: l') = '"' :: '"' :: escQuotes l' := by simp [escQuotes]
      rw [he, List.cons_append, List.cons_append, scanLabel_pair, ih]
      simp only [List.length_cons]
      omega
    · simp only [escQuotes, if_neg ha, List.cons_append]
      rw [scanLabel_nq a _ ha, ih]
      simp only [List.length_cons]
      omega

/-- Dropping leading whitespace is the identity when the head is not blank. -/
lemma pyLstrip_cons_of (c : Char) (l : Str) (h : c.isWhitespace = false) :
    pyLstrip (c :: l) = c :: l := by
  simp [pyLstrip, List.dropWhile_cons, h]

/-- Dropping trailing whitespace is the identity when the last char is not blank. -/
lemma pyRstrip_append_of (l : Str) (c : Char) (h : c.isWhitespace = false) :
    pyRstrip (l ++ [c]) = l ++ [c] := by
  simp [pyRstrip, List.reverse_append, List.dropWhile_cons, h]

/-- A list is a Boolean prefix of itself followed by anything. -/
lemma isPrefixOf_append_self (a b : Str) : a.isPrefixOf (a ++ b) = true := by
  induction a with
  | nil => simp [List.isPrefixOf]
  | cons c t ih => simp [List.isPrefixOf, ih]

/-- takeWhile of non-quote characters runs to the closing quote. -/
lemma takeWhile_until_quote (u : Str) (h : '"' ∉ u) (b : Str) :
    (u ++ '"' :: b).takeWhile (fun c => c ≠ '"') = u := by
  induction u with
  | nil => simp [List.takeWhile_cons]
  | cons c t ih =>
    have hc : c ≠ '"' := fun hc => h (hc ▸ List.mem_cons_self c t)
    have ht : '"' ∉ t := fun hm => h (List.mem_cons_of_mem c hm)
    have h2 := ih ht
    simp [List.takeWhile_cons, hc] at h2 ⊢
    exact h2

/-- Dropping the url segment and its closing quote. -/
lemma drop_url_segment (u : Str) (b : Str) :
    (u ++ '"' :: b).drop (u.length + 1) = b := by
  have h : u ++ '"' :: b = (u ++ ['"']) ++ b := by simp
  rw [h]
  have hl : u.length + 1 = (u ++ ['"']).length := by simp
  rw [hl, List.drop_left]

/-- Shape of the encoded cell for a quote-free url. -/
lemma hyperlink_formula_decomp (url label : Str) (h2 : '"' ∉ url) :
    _hyperlink_formula url label =
      str "=HYPERLINK(" ++
        '"' :: (url ++ '"' :: ',' :: ' ' :: '"' :: (escQuotes label ++ '"' :: [')'])) := by
  simp only [_hyperlink_formula, escQuotes_no_quote url h2]
  have e1 : str "=HYPERLINK(\"" = str "=HYPERLINK(" ++ ['"'] := rfl
  have e2 : str "\", \"" = ['"'] ++ ([','] ++ ([' '] ++ ['"'])) := rfl
  have e3 : str "\")" = ['"'] ++ [')'] := rfl
  rw [e1, e2, e3]
  simp [List.append_assoc]

/-- The encoded cell has no surrounding whitespace to strip. -/
lemma pyStrip_formula (url label : Str) :
    pyStrip (_hyperlink_formula url label) = _hyperlink_formula url label := by
  have h1 : _hyperlink_formula url label =
      '=' :: ((str "HYPERLINK(\"" ++ escQuotes url ++ str "\", \"" ++ escQuotes label ++ ['"'])
        ++ [')']) := by
    simp only [_hyperlink_formula]
    have e1 : str "=HYPERLINK(\"" = '=' :: str "HYPERLINK(\"" := rfl
    have e3 : str "\")" = ['"'] ++ [')'] := rfl
    rw [e1, e3]
    simp [List.append_assoc]
  rw [h1, pyStrip, pyLstrip_cons_of _ _ (by decide), ← List.cons_append,
    pyRstrip_append_of _ _ (by decide)]

/-- A quote search skips the literal formula head. -/
lemma dropWhile_hyper_head (b : Str) :
    (str "=HYPERLINK(" ++ '"' :: b).dropWhile (fun c => c ≠ '"') = '"' :: b := rfl

/-- Leading-whitespace strip right before the label's opening quote. -/
lemma pyLstrip_space_quote (x : Str) : pyLstrip (' ' :: '"' :: x) = '"' :: x := rfl

/-- C5 (amended): the hyperlink-cell encode/decode pair is a round trip for
every label (embedded quotes included) whenever the url is nonempty and
contains no double-quote character; a quote inside the url truncates the
decoded url (see the counterexample), so the claim holds only under that
restriction. -/
theorem c5_amended_round_trip (url label : Str) (hne : url ≠ []) (h2 : '"' ∉ url) :
    _parse_hyperlink_cell (_hyperlink_formula url label) = (url, label) := by
  have hd := hyperlink_formula_decomp url label h2
  simp only [_parse_hyperlink_cell, pyStrip_formula url label]
  rw [hd, dropWhile_hyper_head]
  simp only [isPrefixOf_append_self, if_true]
  rw [takeWhile_until_quote url h2, drop_url_segment,
    pyLstrip_cons_of ',' _ (by decide)]
  simp only [pyLstrip_space_quote]
  rw [show escQuotes label ++ '"' :: [')'] = escQuotes label ++ '"' :: ')' :: [] from rfl,
    scanLabel_esc label ')' [] (by decide)]
  rw [show escQuotes label ++ '"' :: ')' :: [] = escQuotes label ++ ['"', ')'] from rfl]
  rw [List.take_left, unescQuotes_escQuotes]

/-- C5 counterexample: a double quote inside the url breaks the round trip —
the encoded cell for url `a"b` decodes to url `a` and label `a`. -/
theorem c5_quoted_url_breaks_round_trip :
  _parse_hyperlink_cell (_hyperlink_formula (str "a\"b") (str "L")) = (str "a", str "a") ∧
  (str "a\"b" : Str) ≠ [] ∧
  (str "a", str "a") ≠ (str "a\"b", str "L") := by decide

/-- Witness for C5 at the spec's own scenario pair. -/
theorem c5_amended_round_trip_witness :
  (str "https://x.com" : Str) ≠ [] ∧ '"' ∉ str "https://x.com" ∧
  _parse_hyperlink_cell (_hyperlink_formula (str "https://x.com") (str "Say \"Hi\"")) =
    (str "https://x.com", str "Say \"Hi\"") :=
  ⟨by decide, by decide, c5_amended_round_trip _ _ (by decide) (by decide)⟩

/-- Branch selection: a failing fetch leaves the core untouched and emits the
display-name and error status messages. -/
lemma stepCore_err (fetch : Str → Except Str (List Company)) (today : Str)
    (c : Core) (p : Str × Str × Str) (e : Str)
    (hn : _normalize_profile_url p.1 ≠ [])
    (hf : fetch p.1 = .error e) :
    stepCore fetch today c p =
      (c, [displayNameOf p.2.1 (followerUrlOf p.1),
           displayNameOf p.2.1 (followerUrlOf p.1) ++ str " (error: " ++ e ++ str ")"]) := by
  simp [stepCore, hn, hf]

/-- Branch selection: flag not `yes` runs the initial-scrape branch. -/
lemma stepCore_ok_initial (fetch : Str → Except Str (List Company)) (today : Str)
    (c : Core) (p : Str × Str × Str) (companies : List Company)
    (hn : _normalize_profile_url p.1 ≠ [])
    (hy : pyLower (pyStrip p.2.2) ≠ str "yes")
    (hf : fetch p.1 = .ok companies) :
    stepCore fetch today c p =
      (stepInitial today p.1 (displayNameOf p.2.1 (followerUrlOf p.1)) (followerUrlOf p.1)
        companies c,
       [displayNameOf p.2.1 (followerUrlOf p.1)]) := by
  simp [stepCore, hn, hf, hy]

/-- Branch selection: flag `yes` runs the incremental branch. -/
lemma stepCore_ok_incremental (fetch : Str → Except Str (List Company)) (today : Str)
    (c : Core) (p : Str × Str × Str) (companies : List Company)
    (hn : _normalize_profile_url p.1 ≠ [])
    (hy : pyLower (pyStrip p.2.2) = str "yes")
    (hf : fetch p.1 = .ok companies) :
    stepCore fetch today c p =
      (stepIncremental today (displayNameOf p.2.1 (followerUrlOf p.1)) (followerUrlOf p.1)
        companies c,
       [displayNameOf p.2.1 (followerUrlOf p.1)]) := by
  simp [stepCore, hn, hf, hy]

/-- Membership is preserved by the descending sort. -/
lemma mem_sortDesc {x : Nat} {l : List Nat} : x ∈ sortDesc l ↔ x ∈ l :=
  (List.perm_insertionSort (fun a b => b ≤ a) l).mem_iff

/-- Length is preserved by the descending sort. -/
lemma length_sortDesc (l : List Nat) : (sortDesc l).length = l.length :=
  (List.perm_insertionSort (fun a b => b ≤ a) l).length_eq

/-- The descending sort is sorted for `≥`. -/
lemma sorted_sortDesc (l : List Nat) : (sortDesc l).Sorted (· ≥ ·) :=
  List.sorted_insertionSort (fun a b => b ≤ a) l

/-- A single-row delete call: one `deleteDimension` batch, erasing that row. -/
lemma remove_single (sheet : List (List Str)) (r : Nat) (h : 1 < r) :
    remove_from_overall_by_row_indices sheet [r] =
      (sheet.eraseIdx (r - 1), [SheetOp.deleteOverallRows [r]]) := by
  simp [remove_from_overall_by_row_indices, sortDesc, h, List.insertionSort]

/-- The write trace of the per-row delete loop: exactly one single-row delete
call per removed row, in loop order. -/
lemma delete_fold (rows : List Nat) :
    ∀ (sheet : List (List Str)) (acc : List SheetOp), (∀ r ∈ rows, 1 < r) →
    (rows.foldl (fun acc2 r =>
        let q := remove_from_overall_by_row_indices acc2.1 [r]
        (q.1, acc2.2 ++ q.2)) (sheet, acc)).2 =
      acc ++ rows.map (fun r => SheetOp.deleteOverallRows [r]) := by
  induction rows with
  | nil => intro sheet acc _; simp
  | cons r rs ih =>
    intro sheet acc h
    have hr : 1 < r := h r (List.mem_cons_self r rs)
    have hrs : ∀ x ∈ rs, 1 < x := fun x hx => h x (List.mem_cons_of_mem _ hx)
    simp only [List.foldl_cons, remove_single sheet r hr, List.map_cons]
    rw [ih (sheet.eraseIdx (r - 1)) (acc ++ [SheetOp.deleteOverallRows [r]]) hrs]
    simp

/-- Write-trace shape of the incremental branch: all (at most 3) batch appends
first, then one single-row delete call per removed row, rows descending. -/
lemma stepIncremental_ops_shape (today displayName followerUrl : Str)
    (companies : List Company) (c : Core) :
    ∃ (apps : List SheetOp) (rows : List Nat),
      (stepIncremental today displayName followerUrl companies c).ops =
        c.ops ++ apps ++ rows.map (fun r => SheetOp.deleteOverallRows [r]) ∧
      apps.length ≤ 3 ∧
      (∀ op ∈ apps, isAppendOp op = true) ∧
      rows.Sorted (· ≥ ·) ∧
      rows.length =
        (stepIncremental today displayName followerUrl companies c).nuList.length
          - c.nuList.length := by
  simp only [stepIncremental]
  set fk := _normalize_profile_url followerUrl with hfk
  set nf := newFollowsOf companies fk (get_overall_set c.store.overallRows).2 with hnf
  set unf := unfollowsOf (get_overall_set c.store.overallRows).1 fk
    (currentSetOf companies fk) with hunf
  have hrows : ∀ r ∈ sortDesc (unf.map (fun q => q.1 + 2)), 1 < r := by
    intro r hr
    rcases List.mem_map.1 (mem_sortDesc.1 hr) with ⟨q, _, rfl⟩
    omega
  refine ⟨(if nf.map (fun co =>
        [pairCell (companyDisplayName co) (pyStrip co.url),
         pairCell displayName followerUrl, ([] : Str), today]) = [] then []
      else [SheetOp.appendOverallRows (nf.map (fun co =>
        [pairCell (companyDisplayName co) (pyStrip co.url),
         pairCell displayName followerUrl, ([] : Str), today]))]) ++
      (if nf.map (fun co =>
        [pairCell (companyDisplayName co) (pyStrip co.url),
         pairCell displayName followerUrl, today]) = [] then []
      else [SheetOp.appendNewFollowsRows (nf.map (fun co =>
        [pairCell (companyDisplayName co) (pyStrip co.url),
         pairCell displayName followerUrl, today]))]) ++
      (if unf.map (fun q =>
        [pairCell q.2.companyName q.2.companyUrl,
         pairCell displayName q.2.followerUrl,
         q.2.initialScrapeDate,
         excel_serial_to_date q.2.dateFollowed,
         today]) = [] then []
      else [SheetOp.appendNewUnfollowsRows (unf.map (fun q =>
        [pairCell q.2.companyName q.2.companyUrl,
         pairCell displayName q.2.followerUrl,
         q.2.initialScrapeDate,
         excel_serial_to_date q.2.dateFollowed,
         today]))]),
    sortDesc (unf.map (fun q => q.1 + 2)), ?_, ?_, ?_, ?_, ?_⟩
  · rw [delete_fold _ _ _ hrows]
    simp [List.append_assoc]
  · simp only [List.length_append]
    split <;> split <;> split <;> simp
  · intro op hop
    rcases List.mem_append.1 hop with hop | hop
    · rcases List.mem_append.1 hop with hop | hop <;>
        · revert hop
          split <;> simp_all [isAppendOp]
    · revert hop
      split <;> simp_all [isAppendOp]
  · exact sorted_sortDesc _
  · simp [length_sortDesc]

/-- C3 (amended): for a profile on the incremental branch, all writes are
staged and flushed as at most 3 batch append calls followed by the row
removals, which are issued only after every comparison is complete and in
descending row order — but as one single-row delete call per removed row
(`remove_from_overall_by_row_index` in a loop), not as a single batched
delete request (see the counterexample). -/
theorem c3_amended_incremental_write_shape
    (fetch : Str → Except Str (List Company)) (today : Str)
    (c : Core) (p : Str × Str × Str) (companies : List Company)
    (hn : _normalize_profile_url p.1 ≠ [])
    (hy : pyLower (pyStrip p.2.2) = str "yes")
    (hf : fetch p.1 = .ok companies) :
    ∃ (apps : List SheetOp) (rows : List Nat),
      (stepCore fetch today c p).1.ops =
        c.ops ++ apps ++ rows.map (fun r => SheetOp.deleteOverallRows [r]) ∧
      apps.length ≤ 3 ∧
      (∀ op ∈ apps, isAppendOp op = true) ∧
      rows.Sorted (· ≥ ·) ∧
      rows.length = (stepCore fetch today c p).1.nuList.length - c.nuList.length := by
  rw [stepCore_ok_incremental fetch today c p companies hn hy hf]
  exact stepIncremental_ops_shape today (displayNameOf p.2.1 (followerUrlOf p.1))
    (followerUrlOf p.1) companies c

/-- Witness for C3's amended statement at the two-unfollow scenario. -/
theorem c3_amended_incremental_write_shape_witness :
    ∃ (apps : List SheetOp) (rows : List Nat),
      (stepCore (fun _ => .ok []) (str "2026-03-01") (initCore twoRowStore)
          (johnProfileUrl, str "John", str "Yes")).1.ops =
        (initCore twoRowStore).ops ++ apps ++
          rows.map (fun r => SheetOp.deleteOverallRows [r]) ∧
      apps.length ≤ 3 ∧
      (∀ op ∈ apps, isAppendOp op = true) ∧
      rows.Sorted (· ≥ ·) ∧
      rows.length = (stepCore (fun _ => .ok []) (str "2026-03-01") (initCore twoRowStore)
          (johnProfileUrl, str "John", str "Yes")).1.nuList.length -
        (initCore twoRowStore).nuList.length :=
  c3_amended_incremental_write_shape (fun _ => .ok []) (str "2026-03-01")
    (initCore twoRowStore) (johnProfileUrl, str "John", str "Yes") []
    (by decide) (by decide) rfl

/-- dropWhile is idempotent. -/
lemma dropWhile_dropWhile {α : Type} (p : α → Bool) (l : List α) :
    (l.dropWhile p).dropWhile p = l.dropWhile p := by
  induction l with
  | nil => rfl
  | cons c t ih =>
    by_cases h : p c
    · simp [List.dropWhile_cons, h, ih]
    · simp [List.dropWhile_cons, h]

/-- Left strip is idempotent. -/
lemma pyLstrip_idem (l : Str) : pyLstrip (pyLstrip l) = pyLstrip l :=
  dropWhile_dropWhile _ l

/-- The right strip of a list is one of its prefixes. -/
lemma pyRstrip_prefix_self (l : Str) : pyRstrip l <+: l := by
  have h := List.dropWhile_suffix (l := l.reverse) (p := Char.isWhitespace)
  have h2 := List.reverse_prefix.2 h
  simpa [pyRstrip] using h2

/-- Stripping the left of an already left-stripped list after a right strip
changes nothing. -/
lemma pyLstrip_pyRstrip (m : Str) (h : pyLstrip m = m) :
    pyLstrip (pyRstrip m) = pyRstrip m := by
  cases hr : pyRstrip m with
  | nil => rfl
  | cons c t =>
    have hpre : pyRstrip m <+: m := pyRstrip_prefix_self m
    rw [hr] at hpre
    rcases hpre with ⟨s, hs⟩
    have hm : m = c :: (t ++ s) := by rw [← hs]; simp
    have hc : Char.isWhitespace c = false := by
      cases hcw : Char.isWhitespace c
      · rfl
      · exfalso
        rw [hm] at h
        simp only [pyLstrip, List.dropWhile_cons, hcw, if_pos] at h
        have hlen := (List.dropWhile_suffix (p := Char.isWhitespace) (l := t ++ s)).length_le
        have hlen2 := congrArg List.length h
        simp only [List.length_cons] at hlen2
        omega
    exact pyLstrip_cons_of c t hc

/-- Full strip is idempotent. -/
lemma pyStrip_idem (l : Str) : pyStrip (pyStrip l) = pyStrip l := by
  simp only [pyStrip]
  rw [pyLstrip_pyRstrip (pyLstrip l) (pyLstrip_idem l), pyRstrip, pyRstrip,
    List.reverse_reverse, dropWhile_dropWhile]

/-- Normalization already strips, so stripping first changes nothing. -/
lemma normalize_pyStrip (u : Str) :
    _normalize_profile_url (pyStrip u) = _normalize_profile_url u := by
  simp only [_normalize_profile_url, pyStrip_idem]

/-- A tuple returned by `get_profiles` comes from a data row whose stripped
profile cell is the tuple's profile, under the exact expected header. -/
lemma mem_get_profiles (rows : List (List Str)) (p : Str × Str × Str)
    (hp : p ∈ get_profiles rows) :
    ∃ rest, rows = PROFILES_HEADERS :: rest ∧
      ∃ row ∈ rest, pyStrip (row.getD 1 []) = p.1 := by
  cases rows with
  | nil => simp [get_profiles] at hp
  | cons hdr rest =>
    by_cases hh : hdr = PROFILES_HEADERS
    · subst hh
      refine ⟨rest, rfl, ?_⟩
      rw [show get_profiles (PROFILES_HEADERS :: rest) =
          rest.filterMap (fun row =>
            if cellAt row 1 = [] then none
            else some (cellAt row 1, cellAt row 0, cellAt row 2)) from by
        simp [get_profiles]] at hp
      rcases List.mem_filterMap.1 hp with ⟨row, hrow, hf⟩
      refine ⟨row, hrow, ?_⟩
      by_cases hc : cellAt row 1 = []
      · simp [hc] at hf
      · simp only [if_neg hc, Option.some.injEq] at hf
        rw [← hf]
        rfl
    · simp [get_profiles, hh] at hp

/-- If some data row matches the key, the flag-setting scan succeeds. -/
lemma findSetScraped_isSome (key : Str) :
    ∀ (i : Nat) (rest : List (List Str)),
    (∃ row ∈ rest, _normalize_profile_url (row.getD 1 []) = key) →
    (findSetScraped key i rest).isSome := by
  intro i rest
  induction rest generalizing i with
  | nil => rintro ⟨row, hrow, _⟩; simp at hrow
  | cons row rest ih =>
    rintro ⟨r2, hr2, hkey⟩
    by_cases hm : _normalize_profile_url (row.getD 1 []) = key
    · simp only [findSetScraped, if_pos hm, Option.isSome_some]
    · rcases List.mem_cons.1 hr2 with rfl | hr2
      · exact absurd hkey hm
      · have hs := ih (i + 1) ⟨r2, hr2, hkey⟩
        simp only [findSetScraped, if_neg hm]
        rcases hq : findSetScraped key (i + 1) rest with _ | q
        · rw [hq] at hs; simp at hs
        · simp

/-- After the scan updates the first matching row, a flag lookup on the
updated rows finds `Yes`. -/
lemma flagLookup_findSetScraped (key : Str) :
    ∀ (i : Nat) (rest : List (List Str)) (q : Nat × List (List Str)),
    findSetScraped key i rest = some q →
    flagLookup key q.2 = some (str "Yes") := by
  intro i rest
  induction rest generalizing i with
  | nil => intro q h; simp [findSetScraped] at h
  | cons row rest ih =>
    intro q h
    by_cases hm : _normalize_profile_url (row.getD 1 []) = key
    · simp only [findSetScraped, if_pos hm, Option.some.injEq] at h
      subst h
      have hcell : (setScrapedYes row).getD 1 [] = row.getD 1 [] := rfl
      simp only [flagLookup, hcell, if_pos hm]
      rfl
    · simp only [findSetScraped, if_neg hm] at h
      rcases hq : findSetScraped key (i + 1) rest with _ | q2
      · rw [hq] at h; simp at h
      · rw [hq] at h
        simp only [Option.some.injEq] at h
        subst h
        simp only [flagLookup, if_neg hm]
        exact ih (i + 1) q2 hq

/-- Setting the flag makes a later lookup of the same key read `Yes`. -/
lemma set_profile_flag (rows : List (List Str)) (url : Str) (hdrRow : List Str)
    (rest : List (List Str)) (hrows : rows = hdrRow :: rest)
    (hkey : _normalize_profile_url url ≠ [])
    (hex : ∃ row ∈ rest, _normalize_profile_url (row.getD 1 []) = _normalize_profile_url url) :
    profileFlagCell (set_profile_initially_scraped rows url).1 (_normalize_profile_url url) =
      some (str "Yes") := by
  subst hrows
  simp only [set_profile_initially_scraped, if_neg hkey]
  have hsome := findSetScraped_isSome (_normalize_profile_url url) 1 rest hex
  rcases hq : findSetScraped (_normalize_profile_url url) 1 rest with _ | q
  · rw [hq] at hsome; simp at hsome
  · simp only [hq, profileFlagCell]
    exact flagLookup_findSetScraped (_normalize_profile_url url) 1 rest q hq

/-- Every write performed by the flag update is an update-cell call. -/
lemma set_profile_ops (rows : List (List Str)) (url : Str) :
    ∀ op ∈ (set_profile_initially_scraped rows url).2,
      ∃ i, op = SheetOp.updateProfileScrapedCell i := by
  intro op hop
  by_cases hk : _normalize_profile_url url = []
  · simp [set_profile_initially_scraped, hk] at hop
  · cases rows with
    | nil => simp [set_profile_initially_scraped, hk] at hop
    | cons hdr rest =>
      rcases hq : findSetScraped (_normalize_profile_url url) 1 rest with _ | q
      · simp [set_profile_initially_scraped, hk, hq] at hop
      · simp [set_profile_initially_scraped, hk, hq] at hop
        exact ⟨q.1 + 1, hop⟩

/-- C7: for a profile whose initially-scraped flag is not yet `Yes`, one pass
appends exactly one Overall row per fetched company — each carrying today as
the initial-scrape date and an empty date-followed — as a single batch append
(plus only the flag-update write), produces no follow or unfollow records,
flips the profile's flag to `Yes`, and counts the profile as processed. -/
theorem c7_initial_scrape_branch
    (fetch : Str → Except Str (List Company)) (today : Str)
    (c : Core) (p : Str × Str × Str) (companies : List Company)
    (hn : _normalize_profile_url p.1 ≠ [])
    (hy : pyLower (pyStrip p.2.2) ≠ str "yes")
    (hf : fetch p.1 = .ok companies)
    (hp : p ∈ get_profiles c.store.profilesRows) :
    (stepCore fetch today c p).1.store.overallRows =
      c.store.overallRows ++ companies.map
        (initialOverallRow today (displayNameOf p.2.1 (followerUrlOf p.1)) (followerUrlOf p.1)) ∧
    (∀ co : Company,
      (initialOverallRow today (displayNameOf p.2.1 (followerUrlOf p.1))
        (followerUrlOf p.1) co).getD 2 [] = today ∧
      (initialOverallRow today (displayNameOf p.2.1 (followerUrlOf p.1))
        (followerUrlOf p.1) co).getD 3 [] = []) ∧
    (stepCore fetch today c p).1.nfList = c.nfList ∧
    (stepCore fetch today c p).1.nuList = c.nuList ∧
    (∃ flagOps : List SheetOp,
      (stepCore fetch today c p).1.ops =
        c.ops ++
          (if companies = [] then []
           else [SheetOp.appendOverallRows (companies.map
             (initialOverallRow today (displayNameOf p.2.1 (followerUrlOf p.1))
               (followerUrlOf p.1)))]) ++ flagOps ∧
      ∀ op ∈ flagOps, ∃ i, op = SheetOp.updateProfileScrapedCell i) ∧
    profileFlagCell (stepCore fetch today c p).1.store.profilesRows
      (_normalize_profile_url p.1) = some (str "Yes") ∧
    (stepCore fetch today c p).1.processed = c.processed + 1 := by
  rw [stepCore_ok_initial fetch today c p companies hn hy hf]
  rcases mem_get_profiles c.store.profilesRows p hp with ⟨rest, hrows, row, hrow, hcell⟩
  refine ⟨?_, ?_, rfl, rfl, ?_, ?_, rfl⟩
  · simp only [stepInitial]
    by_cases hco : companies = []
    · subst hco; simp
    · rw [if_neg (by simpa using hco)]
  · intro co
    exact ⟨rfl, rfl⟩
  · refine ⟨(set_profile_initially_scraped c.store.profilesRows p.1).2, ?_,
      set_profile_ops c.store.profilesRows p.1⟩
    simp only [stepInitial]
    by_cases hco : companies = []
    · subst hco; simp
    · rw [if_neg (by simpa using hco), if_neg hco]
  · simp only [stepInitial]
    refine set_profile_flag c.store.profilesRows p.1 PROFILES_HEADERS rest hrows hn ?_
    refine ⟨row, hrow, ?_⟩
    rw [← normalize_pyStrip (row.getD 1 []), hcell]

/-- Witness for C7 at the concrete not-yet-scraped John profile. -/
theorem c7_initial_scrape_branch_witness :
    (stepCore fetchAcme (str "2026-03-01") (initCore initStoreNo)
      (johnProfileUrl, str "John", str "No")).1.store.overallRows =
      (initCore initStoreNo).store.overallRows ++ [acmeCompany].map
        (initialOverallRow (str "2026-03-01")
          (displayNameOf (str "John") (followerUrlOf johnProfileUrl))
          (followerUrlOf johnProfileUrl)) ∧
    (∀ co : Company,
      (initialOverallRow (str "2026-03-01")
        (displayNameOf (str "John") (followerUrlOf johnProfileUrl))
        (followerUrlOf johnProfileUrl) co).getD 2 [] = str "2026-03-01" ∧
      (initialOverallRow (str "2026-03-01")
        (displayNameOf (str "John") (followerUrlOf johnProfileUrl))
        (followerUrlOf johnProfileUrl) co).getD 3 [] = []) ∧
    (stepCore fetchAcme (str "2026-03-01") (initCore initStoreNo)
      (johnProfileUrl, str "John", str "No")).1.nfList = (initCore initStoreNo).nfList ∧
    (stepCore fetchAcme (str "2026-03-01") (initCore initStoreNo)
      (johnProfileUrl, str "John", str "No")).1.nuList = (initCore initStoreNo).nuList ∧
    (∃ flagOps : List SheetOp,
      (stepCore fetchAcme (str "2026-03-01") (initCore initStoreNo)
        (johnProfileUrl, str "John", str "No")).1.ops =
        (initCore initStoreNo).ops ++
          (if [acmeCompany] = ([] : List Company) then []
           else [SheetOp.appendOverallRows ([acmeCompany].map
             (initialOverallRow (str "2026-03-01")
               (displayNameOf (str "John") (followerUrlOf johnProfileUrl))
               (followerUrlOf johnProfileUrl)))]) ++ flagOps ∧
      ∀ op ∈ flagOps, ∃ i, op = SheetOp.updateProfileScrapedCell i) ∧
    profileFlagCell (stepCore fetchAcme (str "2026-03-01") (initCore initStoreNo)
      (johnProfileUrl, str "John", str "No")).1.store.profilesRows
      (_normalize_profile_url johnProfileUrl) = some (str "Yes") ∧
    (stepCore fetchAcme (str "2026-03-01") (initCore initStoreNo)
      (johnProfileUrl, str "John", str "No")).1.processed =
      (initCore initStoreNo).processed + 1 :=
  c7_initial_scrape_branch fetchAcme (str "2026-03-01") (initCore initStoreNo)
    (johnProfileUrl, str "John", str "No") [acmeCompany]
    (by decide) (by decide) rfl (by decide)

/-- Folding the profile loop from any message accumulator shifts the
accumulated status messages. -/
lemma runList_go (fetch : Str → Except Str (List Company)) (today : Str)
    (ps : List (Str × Str × Str)) :
    ∀ (c : Core) (m : List Str),
    ps.foldl (fun acc p =>
      let r := stepCore fetch today acc.1 p
      (r.1, acc.2 ++ r.2)) (c, m) =
    ((runList fetch today ps c).1, m ++ (runList fetch today ps c).2) := by
  induction ps with
  | nil => intro c m; simp [runList]
  | cons p ps ih =>
    intro c m
    simp only [runList, List.foldl_cons]
    rw [ih, ih]
    simp

/-- One step of the profile loop, unfolded. -/
lemma runList_cons (fetch : Str → Except Str (List Company)) (today : Str)
    (p : Str × Str × Str) (ps : List (Str × Str × Str)) (c : Core) :
    runList fetch today (p :: ps) c =
      ((runList fetch today ps (stepCore fetch today c p).1).1,
       (stepCore fetch today c p).2 ++
         (runList fetch today ps (stepCore fetch today c p).1).2) := by
  have h := runList_go fetch today ps (stepCore fetch today c p).1
    ([] ++ (stepCore fetch today c p).2)
  simp only [runList, List.foldl_cons]
  rw [h]
  simp
  constructor <;> rfl

/-- Splitting the profile loop at a list append. -/
lemma runList_append (fetch : Str → Except Str (List Company)) (today : Str)
    (l₁ l₂ : List (Str × Str × Str)) (c : Core) :
    runList fetch today (l₁ ++ l₂) c =
      ((runList fetch today l₂ (runList fetch today l₁ c).1).1,
       (runList fetch today l₁ c).2 ++
         (runList fetch today l₂ (runList fetch today l₁ c).1).2) := by
  induction l₁ generalizing c with
  | nil => simp [runList_cons]; rfl
  | cons p l₁ ih =>
    rw [List.cons_append, runList_cons, runList_cons, ih]
    simp [List.append_assoc]

/-- C8: when the remote fetch for one profile raises, the error is reported
through the status callback and the run's entire observable core — store,
write trace, processed count, delta lists and progress trace — equals that of
the same run with the failed profile removed from the list. -/
theorem c8_failed_profile_excluded
    (fetch : Str → Except Str (List Company)) (today : Str)
    (ps₁ ps₂ : List (Str × Str × Str)) (p : Str × Str × Str) (c : Core) (e : Str)
    (hn : _normalize_profile_url p.1 ≠ [])
    (hf : fetch p.1 = .error e) :
    (runList fetch today (ps₁ ++ p :: ps₂) c).1 =
      (runList fetch today (ps₁ ++ ps₂) c).1 ∧
    (displayNameOf p.2.1 (followerUrlOf p.1) ++ str " (error: " ++ e ++ str ")")
      ∈ (runList fetch today (ps₁ ++ p :: ps₂) c).2 := by
  have herr := stepCore_err fetch today (runList fetch today ps₁ c).1 p e hn hf
  constructor
  · rw [runList_append, runList_append, runList_cons, herr]
  · rw [runList_append, runList_cons, herr]
    simp

/-- Witness for C8: a two-profile run in which the first profile's fetch
fails with a quota error. -/
theorem c8_failed_profile_excluded_witness :
    (runList (fun u => if u = johnProfileUrl then .error (str "quota")
        else .ok [acmeCompany]) (str "2026-03-01")
      ([] ++ (johnProfileUrl, str "John", str "Yes") ::
        [(str "mary", str "Mary", str "Yes")]) (initCore emptyOverallStore)).1 =
      (runList (fun u => if u = johnProfileUrl then .error (str "quota")
          else .ok [acmeCompany]) (str "2026-03-01")
        ([] ++ [(str "mary", str "Mary", str "Yes")]) (initCore emptyOverallStore)).1 ∧
    (displayNameOf (str "John") (followerUrlOf johnProfileUrl) ++
        str " (error: " ++ str "quota" ++ str ")")
      ∈ (runList (fun u => if u = johnProfileUrl then .error (str "quota")
          else .ok [acmeCompany]) (str "2026-03-01")
        ([] ++ (johnProfileUrl, str "John", str "Yes") ::
          [(str "mary", str "Mary", str "Yes")]) (initCore emptyOverallStore)).2 :=
  c8_failed_profile_excluded
    (fun u => if u = johnProfileUrl then .error (str "quota") else .ok [acmeCompany])
    (str "2026-03-01") [] [(str "mary", str "Mary", str "Yes")]
    (johnProfileUrl, str "John", str "Yes") (initCore emptyOverallStore) (str "quota")
    (by decide) rfl

/-- What a successful day scan guarantees: the hit satisfies the predicate,
lies in the scanned window, and every earlier candidate fails. -/
lemma scanDays_some (p : Nat → Bool) :
    ∀ (fuel d d' : Nat), scanDays p fuel d = some d' →
      p d' = true ∧ d ≤ d' ∧ d' < d + fuel ∧ ∀ k, d ≤ k → k < d' → p k = false := by
  intro fuel
  induction fuel with
  | zero => intro d d' h; simp [scanDays] at h
  | succ n ih =>
    intro d d' h
    by_cases hp : p d = true
    · simp only [scanDays, if_pos hp, Option.some.injEq] at h
      subst h
      exact ⟨hp, le_refl _, by omega, fun k h1 h2 => absurd h1 (by omega)⟩
    · have hp' : p d = false := by
        cases hpd : p d
        · rfl
        · exact absurd hpd hp
      simp only [scanDays, hp', Bool.false_eq_true, if_false] at h
      obtain ⟨h1, h2, h3, h4⟩ := ih (d + 1) d' h
      refine ⟨h1, by omega, by omega, ?_⟩
      intro k hk1 hk2
      by_cases hkd : k = d
      · exact hkd ▸ hp'
      · exact h4 k (by omega) hk2

/-- A failed day scan means every candidate in the window fails. -/
lemma scanDays_none (p : Nat → Bool) :
    ∀ (fuel d : Nat), scanDays p fuel d = none →
      ∀ k, d ≤ k → k < d + fuel → p k = false := by
  intro fuel
  induction fuel with
  | zero => intro d _ k _ _; omega
  | succ n ih =>
    intro d h k hk1 hk2
    by_cases hp : p d = true
    · simp [scanDays, hp] at h
    · have hp' : p d = false := by
        cases hpd : p d
        · rfl
        · exact absurd hpd hp
      simp only [scanDays, hp', Bool.false_eq_true, if_false] at h
      by_cases hkd : k = d
      · exact hkd ▸ hp'
      · exact ih (d + 1) h k (by omega) (by omega)

/-- Weekdays repeat with period 7. -/
lemma wkday_add7 (d : Int) : wkday (d + 7) = wkday d := by
  simp only [wkday]
  omega

/-- Any weekday value below 7 is reached within the next 1..7 days. -/
lemma wkday_exists (x : Int) (v : Nat) (hv : v < 7) :
    ∃ k : Nat, 1 ≤ k ∧ k ≤ 7 ∧ wkday (x + (k : Int)) = v := by
  by_cases h0 : (v + 7 - wkday x) % 7 = 0
  · refine ⟨7, by omega, by omega, ?_⟩
    simp only [wkday] at h0 ⊢
    omega
  · refine ⟨(v + 7 - wkday x) % 7, by omega, by omega, ?_⟩
    simp only [wkday] at h0 ⊢
    omega

/-- C10: with a nonempty set of selected weekdays, `get_next_run` returns the
earliest instant that is strictly after `now`, at most 7 days ahead, at the
configured hour/minute time of day, and on a selected weekday; it returns
`none` exactly when the selected-day set is empty. -/
theorem c10_get_next_run_spec (sel : List Nat) (h m : Nat) (now : DT)
    (hsel : ∀ d ∈ sel, d < 7) :
    (get_next_run sel h m now = none ↔ sel = []) ∧
    (∀ r, get_next_run sel h m now = some r →
      dtLt now r ∧ dtLe r ⟨now.day + 7, now.us⟩ ∧ r.us = usOfHM h m ∧
      wkday r.day ∈ sel ∧
      ∀ t : DT, dtLt now t → t.us = usOfHM h m → wkday t.day ∈ sel → dtLe r t) := by
  by_cases hemp : sel = []
  · subst hemp
    constructor
    · simp [get_next_run]
    · intro r hr
      simp [get_next_run] at hr
  · by_cases hbr : wkday now.day ∈ sel ∧ dtLt now ⟨now.day, usOfHM h m⟩
    · have hres : get_next_run sel h m now = some ⟨now.day, usOfHM h m⟩ := by
        simp only [get_next_run, if_neg hemp, if_pos hbr]
      refine ⟨by simp [hres, hemp], ?_⟩
      intro r hr
      rw [hres] at hr
      obtain rfl := Option.some.inj hr
      refine ⟨hbr.2, Or.inl (Or.inl (by dsimp only; omega)), rfl, hbr.1, ?_⟩
      intro t ht1 ht2 ht3
      rcases Int.lt_trichotomy t.day now.day with hlt | heq | hgt
      · exfalso
        rcases ht1 with h1 | h1
        · omega
        · exact absurd h1.1 (by omega)
      · refine Or.inr ?_
        cases t with
        | mk td tu =>
          simp only [DT.mk.injEq]
          exact ⟨heq.symm, ht2.symm⟩
      · exact Or.inl (Or.inl hgt)
    · have hres : get_next_run sel h m now =
          match scanDays (fun d => decide (wkday (now.day + (d : Int)) ∈ sel)) 7 1 with
          | some d => some ⟨now.day + (d : Int), usOfHM h m⟩
          | none => none := by
        simp only [get_next_run, if_neg hemp, if_neg hbr]
      rcases hscan : scanDays (fun d => decide (wkday (now.day + (d : Int)) ∈ sel)) 7 1
        with _ | d
      · exfalso
        obtain ⟨x, hx⟩ := List.exists_mem_of_ne_nil sel hemp
        obtain ⟨k, hk1, hk7, hkw⟩ := wkday_exists now.day x (hsel x hx)
        have hfalse := scanDays_none _ 7 1 hscan k hk1 (by omega)
        rw [hkw] at hfalse
        simp [hx] at hfalse
      · obtain ⟨hpd, hd1, hd8, hmin⟩ := scanDays_some _ 7 1 d hscan
        have hwd : wkday (now.day + (d : Int)) ∈ sel := of_decide_eq_true hpd
        have hres2 : get_next_run sel h m now = some ⟨now.day + (d : Int), usOfHM h m⟩ := by
          rw [hres, hscan]
        refine ⟨by simp [hres2, hemp], ?_⟩
        intro r hr
        rw [hres2] at hr
        obtain rfl := Option.some.inj hr
        refine ⟨Or.inl (by dsimp only; omega), ?_, rfl, hwd, ?_⟩
        · by_cases hd7 : d = 7
          · subst hd7
            have hw : wkday now.day ∈ sel := by
              have h2 := hwd
              have h3 : now.day + ((7 : Nat) : Int) = now.day + 7 := by norm_num
              rw [h3, wkday_add7] at h2
              exact h2
            have hus : usOfHM h m ≤ now.us := by
              by_contra hcu
              exact hbr ⟨hw, Or.inr ⟨rfl, by dsimp only; omega⟩⟩
            have hday : now.day + ((7 : Nat) : Int) = now.day + 7 := by norm_num
            rcases lt_or_eq_of_le hus with hlt | heq
            · exact Or.inl (Or.inr ⟨hday, hlt⟩)
            · refine Or.inr ?_
              simp only [DT.mk.injEq]
              exact ⟨hday, heq⟩
          · exact Or.inl (Or.inl (by dsimp only; omega))
        · intro t ht1 ht2 ht3
          rcases Int.lt_trichotomy t.day now.day with hlt | heq | hgt
          · exfalso
            rcases ht1 with h1 | h1
            · omega
            · exact absurd h1.1 (by omega)
          · exfalso
            have hw : wkday now.day ∈ sel := by rw [← heq]; exact ht3
            have hlt2 : dtLt now ⟨now.day, usOfHM h m⟩ := by
              rcases ht1 with h1 | h1
              · exact absurd h1 (by omega)
              · exact Or.inr ⟨rfl, ht2 ▸ h1.2⟩
            exact hbr ⟨hw, hlt2⟩
          · have hday : t.day = now.day + ((t.day - now.day).toNat : Int) := by omega
            by_cases hkd : (t.day - now.day).toNat < d
            · exfalso
              have hfalse := hmin (t.day - now.day).toNat (by omega) hkd
              rw [← hday] at hfalse
              simp [ht3] at hfalse
            · have hle : now.day + (d : Int) ≤ t.day := by omega
              rcases lt_or_eq_of_le hle with hlt2 | heq2
              · exact Or.inl (Or.inl hlt2)
              · refine Or.inr ?_
                cases t with
                | mk td tu =>
                  simp only [DT.mk.injEq]
                  exact ⟨heq2, ht2.symm⟩

/-- Witness for C10: Mondays-only schedule queried from a Monday at the
configured instant rolls over to the next Monday. -/
theorem c10_get_next_run_spec_witness :
    (∀ d ∈ [0], d < 7) ∧
    (get_next_run [0] 9 0 ⟨0, usOfHM 9 0⟩ = none ↔ ([0] : List Nat) = []) ∧
    (dtLt ⟨0, usOfHM 9 0⟩ ⟨7, usOfHM 9 0⟩ ∧
      dtLe ⟨7, usOfHM 9 0⟩ ⟨(0 : Int) + 7, usOfHM 9 0⟩ ∧
      (DT.mk 7 (usOfHM 9 0)).us = usOfHM 9 0 ∧
      wkday 7 ∈ [0] ∧
      ∀ t : DT, dtLt ⟨0, usOfHM 9 0⟩ t → t.us = usOfHM 9 0 → wkday t.day ∈ [0] →
        dtLe ⟨7, usOfHM 9 0⟩ t) := by
  have hmain := c10_get_next_run_spec [0] 9 0 ⟨0, usOfHM 9 0⟩ (by decide)
  exact ⟨by decide, hmain.1, hmain.2 ⟨7, usOfHM 9 0⟩ (by decide)⟩
